import Mathlib

set_option maxRecDepth 8000

/-!
Verification development for the Helix core: a shallow embedding of the
Self-Healing Cortex (`SelfHealingCortex.execute`, `executeJSON`,
`executeWithBuildCheck`, `extractJSON`, `createRepairPrompt`, `repairCode`),
the UI layout classifier (`detectViewType`), the view-to-strand resolution of
`generateStack` / `spawnApp`, the `PluginRegistry`, and `writeFileSystemMap`,
together with theorems settling the specification's claims about them.

External collaborators (the OpenRouter text-completion call, the build
checker, the on-disk file system, the dependency manifests) are modelled as
explicit functional parameters; stateful caller-supplied closures
(`generator`, `validator`, `buildChecker`) are modelled as functions of their
own invocation index, since the code passes them no other information.
JavaScript `while` loops bounded by an attempt counter are embedded as
structural recursion on the number of remaining iterations
(`remaining = MAX_REPAIR_ATTEMPTS + 1 - attempts`).
-/

namespace Helix

/-- Mirror of `GenerationResult<T>` from `core/types.ts`: optional fields of the
TypeScript interface become `Option`s. -/
structure GenerationResult (T : Type) where
  success : Bool
  data : Option T
  error : Option String
  attempts : Nat
  repairLog : List String
deriving DecidableEq, Repr

/-- `true` on `Except.ok`; used to describe which calls of a fallible
collaborator succeed (a TypeScript function call that does not throw). -/
def exceptOk {ε α : Type} : Except ε α → Bool
  | .ok _ => true
  | .error _ => false

theorem exceptOk_true_iff {ε α : Type} (e : Except ε α) :
    exceptOk e = true ↔ ∃ a, e = .ok a := by
  cases e <;> simp [exceptOk]

theorem exceptOk_false_iff {ε α : Type} (e : Except ε α) :
    exceptOk e = false ↔ ∃ m, e = .error m := by
  cases e <;> simp [exceptOk]

/-- `const MAX_REPAIR_ATTEMPTS = 2` from the Self-Healing Cortex module. -/
def MAX_REPAIR_ATTEMPTS : Nat := 2

/-- Loop body of `SelfHealingCortex.execute`.  The source's
`while (attempts <= MAX_REPAIR_ATTEMPTS)` loop increments `attempts` at the
top of each iteration; the first argument is the number of remaining
iterations (`MAX_REPAIR_ATTEMPTS + 1 - attempts`), so recursion is structural.
`gen k` is the result of the `k`-th call of the caller's zero-argument
`generator` closure (`k` starts at 0); `val k r` is the `k`-th call of the
`validator` closure on result `r`.  An `Except.error` models a thrown
exception.  Note that the generator is invoked with no arguments: no error
context is passed to it. -/
def executeGo {T : Type} (gen : Nat → Except String T)
    (val : Nat → T → Except String Unit) :
    Nat → Nat → String → List String → GenerationResult T
  | 0, attempts, lastError, log =>
      { success := false, data := none, error := some lastError,
        attempts := attempts, repairLog := log }
  | remaining + 1, attempts, lastError, log =>
      let a := attempts + 1
      match gen attempts with
      | .ok r =>
          match val attempts r with
          | .ok _ =>
              { success := true, data := some r, error := none,
                attempts := a, repairLog := log }
          | .error e =>
              executeGo gen val remaining a e
                (log ++ ["Attempt " ++ toString a ++ ": Validation failed - " ++ e])
      | .error e =>
          executeGo gen val remaining a e
            (log ++ ["Attempt " ++ toString a ++ ": Generation failed - " ++ e])

/-- `SelfHealingCortex.execute(generator, validator, repairContext)`.  The
`repairContext` parameter is declared by the source but never read, which the
embedding mirrors by ignoring it. -/
def execute {T : Type} (gen : Nat → Except String T)
    (val : Nat → T → Except String Unit)
    (repairContext : Option String) : GenerationResult T :=
  let _ := repairContext
  executeGo gen val (MAX_REPAIR_ATTEMPTS + 1) 0 "" []

/-- Outcome of attempt `k` of `execute` (0-based): `some (lastError, logEntry)`
when the attempt fails — either the generator throws or the validator throws —
with the error recorded in `lastError` and the entry pushed onto the repair
log; `none` when the attempt succeeds. -/
def attemptLogEntry {T : Type} (gen : Nat → Except String T)
    (val : Nat → T → Except String Unit) (k : Nat) : Option (String × String) :=
  match gen k with
  | .error e => some (e, "Attempt " ++ toString (k + 1) ++ ": Generation failed - " ++ e)
  | .ok r =>
      match val k r with
      | .error e => some (e, "Attempt " ++ toString (k + 1) ++ ": Validation failed - " ++ e)
      | .ok _ => none

/-- JavaScript whitespace for `String.prototype.trim` (the characters that can
occur in the strings this code handles). -/
def jsWhitespace (c : Char) : Bool :=
  c = ' ' || c = '\n' || c = '\t' || c = '\r' || c = '\x0b' || c = '\x0c'

/-- `String.prototype.trim` on a character list. -/
def listTrim (cs : List Char) : List Char :=
  ((cs.dropWhile jsWhitespace).reverse.dropWhile jsWhitespace).reverse

/-- Depth scan of `extractJSON`: walks the character list, incrementing depth
on `openChar` and decrementing on `closeChar` (both tests applied to each
character, in that order), and returns `some (i + 1)` for the first position
where the depth reaches 0 (the source's `end`), or `none` if it never does
(the source leaves `end = 0`). -/
def depthScan (openChar : Option Char) (closeChar : Char) :
    List Char → Nat → Int → Option Nat
  | [], _, _ => none
  | c :: rest, i, depth =>
      let d1 := if some c = openChar then depth + 1 else depth
      let d2 := if c = closeChar then d1 - 1 else d1
      if d2 = 0 then some (i + 1) else depthScan openChar closeChar rest (i + 1) d2

/-- `SelfHealingCortex.extractJSON`: trim, strip a leading ```` ```json ````
or ```` ``` ```` fence and a trailing ```` ``` ```` fence, cut from the first
`\x7b` or `[`, then cut at the position where the brace/bracket depth scan
first returns to zero, and trim.  The scan counts every occurrence of the
open/close characters, with no awareness of string literals. -/
def extractJSONList (cs0 : List Char) : List Char :=
  let json0 := listTrim cs0
  let json1 :=
    if ("```json".toList).isPrefixOf json0 then json0.drop 7
    else if ("```".toList).isPrefixOf json0 then json0.drop 3
    else json0
  let cs := if ("```".toList).isSuffixOf json1 then json1.take (json1.length - 3) else json1
  let startBrace := cs.findIdx? (· = '\x7b')
  let startBracket := cs.findIdx? (· = '[')
  let start : Option Nat :=
    match startBrace, startBracket with
    | none, none => none
    | some a, none => some a
    | none, some b => some b
    | some a, some b => some (min a b)
  let cs1 := match start with
    | none => cs
    | some s => cs.drop s
  let openChar := cs1.head?
  let closeChar : Char := if openChar = some '\x7b' then '\x7d' else ']'
  let cs2 := match depthScan openChar closeChar cs1 0 0 with
    | some e => cs1.take e
    | none => cs1
  listTrim cs2

/-- `SelfHealingCortex.extractJSON` on strings. -/
def extractJSON (response : String) : String :=
  String.mk (extractJSONList response.toList)

/-- JSON values, for the model of the JavaScript `JSON.parse` builtin used by
`executeJSON` (`JSON.parse(jsonStr)`). -/
inductive Json where
  | null : Json
  | bool (b : Bool) : Json
  | num (digits : String) : Json
  | str (s : String) : Json
  | arr (items : List Json) : Json
  | obj (members : List (String × Json)) : Json

/-- JSON insignificant whitespace. -/
def jsonWs (c : Char) : Bool :=
  c = ' ' || c = '\n' || c = '\t' || c = '\r'

/-- Body of a JSON string literal, after the opening quote: ends at an
unescaped quote; a backslash always escapes the following character. -/
def parseStrLit : Nat → List Char → Option (String × List Char)
  | 0, _ => none
  | _, [] => none
  | fuel + 1, c :: rest =>
      if c = '"' then some ("", rest)
      else if c = '\\' then
        match rest with
        | [] => none
        | e :: rest2 =>
            (parseStrLit fuel rest2).map (fun p => (String.mk [c, e] ++ p.1, p.2))
      else (parseStrLit fuel rest).map (fun p => (String.mk [c] ++ p.1, p.2))

/-- Characters that may make up a JSON number token. -/
def jsonNumChar (c : Char) : Bool :=
  c.isDigit || c = '-' || c = '+' || c = '.' || c = 'e' || c = 'E'

/-- A JSON number token: a maximal run of number characters that starts with a
digit or a minus sign and contains at least one digit. -/
def parseNum (cs : List Char) : Option (Json × List Char) :=
  let tok := cs.takeWhile jsonNumChar
  let rest := cs.dropWhile jsonNumChar
  match tok with
  | [] => none
  | c :: _ =>
      if (c.isDigit || c = '-') && tok.any (·.isDigit) then
        some (.num (String.mk tok), rest)
      else none

/-- Comma-separated array items after `[` (with leading whitespace consumed);
`pv` parses one value. -/
def parseItems (pv : List Char → Option (Json × List Char)) :
    Nat → List Char → Option (List Json × List Char)
  | 0, _ => none
  | fuel + 1, cs =>
      match cs with
      | ']' :: rest => some ([], rest)
      | _ =>
          match pv cs with
          | none => none
          | some (v, r) =>
              match r.dropWhile jsonWs with
              | ',' :: r2 =>
                  match parseItems pv fuel (r2.dropWhile jsonWs) with
                  | some (vs, rr) => some (v :: vs, rr)
                  | none => none
              | ']' :: r2 => some ([v], r2)
              | _ => none

/-- Comma-separated object members after `\x7b` (with leading whitespace
consumed); `pv` parses one value. -/
def parseMembers (pv : List Char → Option (Json × List Char)) :
    Nat → List Char → Option (List (String × Json) × List Char)
  | 0, _ => none
  | fuel + 1, cs =>
      match cs with
      | '\x7d' :: rest => some ([], rest)
      | '"' :: rest =>
          match parseStrLit (rest.length + 1) rest with
          | none => none
          | some (key, r) =>
              match r.dropWhile jsonWs with
              | ':' :: r2 =>
                  match pv r2 with
                  | none => none
                  | some (v, r3) =>
                      match r3.dropWhile jsonWs with
                      | ',' :: r4 =>
                          match parseMembers pv fuel (r4.dropWhile jsonWs) with
                          | some (ms, rr) => some ((key, v) :: ms, rr)
                          | none => none
                      | '\x7d' :: r4 => some ([(key, v)], r4)
                      | _ => none
              | _ => none
      | _ => none

/-- One JSON value (recursive descent, fuel-bounded; the fuel exceeds the
input length on every call from `jsonParse`, so it never runs out on the
strings this development evaluates). -/
def parseVal : Nat → List Char → Option (Json × List Char)
  | 0, _ => none
  | fuel + 1, cs0 =>
      match cs0.dropWhile jsonWs with
      | 'n' :: 'u' :: 'l' :: 'l' :: rest => some (.null, rest)
      | 't' :: 'r' :: 'u' :: 'e' :: rest => some (.bool true, rest)
      | 'f' :: 'a' :: 'l' :: 's' :: 'e' :: rest => some (.bool false, rest)
      | '"' :: rest =>
          (parseStrLit (rest.length + 1) rest).map (fun p => (.str p.1, p.2))
      | '[' :: rest =>
          (parseItems (parseVal fuel) fuel (rest.dropWhile jsonWs)).map
            (fun p => (.arr p.1, p.2))
      | '\x7b' :: rest =>
          (parseMembers (parseVal fuel) fuel (rest.dropWhile jsonWs)).map
            (fun p => (.obj p.1, p.2))
      | cs => parseNum cs

/-- Model of the JavaScript `JSON.parse` builtin: parses one JSON value and
requires only whitespace to remain; `none` models a thrown `SyntaxError`. -/
def jsonParse (s : String) : Option Json :=
  match parseVal (s.length + 1) s.toList with
  | none => none
  | some (v, rest) => if (rest.dropWhile jsonWs).isEmpty then some v else none

/-- `SelfHealingCortex.createRepairPrompt(originalPrompt, error)`. -/
def createRepairPrompt (originalPrompt error : String) : String :=
  "The previous generation had an error:\nERROR: " ++ error ++
    "\n\nPlease fix the issue and regenerate. Remember:\n" ++
    "1. Output ONLY valid JSON, no markdown or explanations\n" ++
    "2. Ensure all required fields are present\n" ++
    "3. Ensure proper escaping of special characters\n\nORIGINAL REQUEST:\n" ++
    originalPrompt

/-- The `try` body of one `executeJSON` iteration: call `createCompletion`
(modelled by `llm`, indexed by its invocation number `k`), extract the JSON
substring, `JSON.parse` it (a `SyntaxError` is modelled by the fixed message
`"JSONParseError"`), then apply the caller's `parseAndValidate`. -/
def jsonStep {T : Type} (llm : Nat → String → String → Except String String)
    (pv : Json → Except String T) (systemPrompt : String)
    (k : Nat) (prompt : String) : Except String T :=
  match llm k systemPrompt prompt with
  | .error e => .error e
  | .ok response =>
      match jsonParse (extractJSON response) with
      | none => .error "JSONParseError"
      | some j => pv j

/-- Loop of `SelfHealingCortex.executeJSON`, with the list of user prompts
passed to `createCompletion` recorded in invocation order (the last result
component).  On a failed attempt with attempts remaining, the next prompt is
`createRepairPrompt(userPrompt, lastError)`.  The first argument counts the
remaining iterations, as in `executeGo`. -/
def executeJSONGo {T : Type} (llm : Nat → String → String → Except String String)
    (pv : Json → Except String T) (systemPrompt userPrompt : String) :
    Nat → Nat → String → String → List String → List String →
    GenerationResult T × List String
  | 0, attempts, _, lastError, log, trace =>
      ({ success := false, data := none,
         error := some ("Failed after " ++ toString attempts ++ " attempts: " ++ lastError),
         attempts := attempts, repairLog := log }, trace)
  | remaining + 1, attempts, currentPrompt, _, log, trace =>
      let a := attempts + 1
      let trace1 := trace ++ [currentPrompt]
      match jsonStep llm pv systemPrompt attempts currentPrompt with
      | .ok v =>
          ({ success := true, data := some v, error := none,
             attempts := a, repairLog := log }, trace1)
      | .error e =>
          let log1 := log ++ ["Attempt " ++ toString a ++ ": " ++ e]
          let nextPrompt :=
            if a ≤ MAX_REPAIR_ATTEMPTS then createRepairPrompt userPrompt e
            else currentPrompt
          executeJSONGo llm pv systemPrompt userPrompt remaining a nextPrompt e log1 trace1

/-- `SelfHealingCortex.executeJSON(systemPrompt, userPrompt, parseAndValidate)`
with the completion collaborator `llm` explicit. -/
def executeJSON {T : Type} (llm : Nat → String → String → Except String String)
    (systemPrompt userPrompt : String) (pv : Json → Except String T) :
    GenerationResult T :=
  (executeJSONGo llm pv systemPrompt userPrompt (MAX_REPAIR_ATTEMPTS + 1) 0
    userPrompt "" [] []).1

/-- The user prompts `executeJSON` passes to `createCompletion`, in order. -/
def executeJSONPrompts {T : Type} (llm : Nat → String → String → Except String String)
    (systemPrompt userPrompt : String) (pv : Json → Except String T) :
    List String :=
  (executeJSONGo llm pv systemPrompt userPrompt (MAX_REPAIR_ATTEMPTS + 1) 0
    userPrompt "" [] []).2

/-- Mirror of the build checker's `\x7b success, error? \x7d` result. -/
structure BuildCheckResult where
  success : Bool
  error : Option String
deriving DecidableEq, Repr

/-- System prompt of `SelfHealingCortex.repairCode`. -/
def repairSystemPrompt : String :=
  "You are a code repair specialist. \n" ++
    "Fix the error in the provided code and return ONLY the corrected code.\n" ++
    "Do not include explanations or markdown fences."

/-- User prompt of `SelfHealingCortex.repairCode`. -/
def repairUserPrompt (brokenCode error : String) : String :=
  "Fix this code that has an error:\n\nERROR:\n" ++ error ++ "\n\nCODE:\n" ++
    brokenCode ++ "\n\nReturn the fixed code only."

/-- The response cleanup at the end of `repairCode`: trim; if the response
starts with ```` ``` ````, drop everything up to and including the first
newline (when there is no newline, `indexOf` yields `-1` and `slice(0)`
leaves the string unchanged); strip a trailing ```` ``` ````; trim. -/
def cleanCodeResponse (response : String) : String :=
  let cs0 := listTrim response.toList
  let cs1 :=
    if ("```".toList).isPrefixOf cs0 then
      match cs0.findIdx? (· = '\n') with
      | some i => cs0.drop (i + 1)
      | none => cs0
    else cs0
  let cs2 := if ("```".toList).isSuffixOf cs1 then cs1.take (cs1.length - 3) else cs1
  String.mk (listTrim cs2)

/-- `SelfHealingCortex.repairCode(brokenCode, error)`: one `createCompletion`
call (`llm`, indexed by the iteration `k` in which it happens) followed by the
response cleanup. -/
def repairCode (llm : Nat → String → String → Except String String)
    (k : Nat) (brokenCode error : String) : Except String String :=
  (llm k repairSystemPrompt (repairUserPrompt brokenCode error)).map cleanCodeResponse

/-- `buildResult.error || "Build failed"` (a missing or empty error string is
falsy). -/
def buildFailError (res : BuildCheckResult) : String :=
  match res.error with
  | some t => if t ≠ "" then t else "Build failed"
  | none => "Build failed"

/-- Loop of `SelfHealingCortex.executeWithBuildCheck`, recording the codes
submitted to the build checker (`binputs`) and the outputs of the repair calls
(`routs`).  Each iteration assigns `currentCode = await generator()` before
the build check, so a repaired code produced in the previous iteration is
overwritten and never reaches the build checker; the embedding reflects this
by recording the repair output in `routs` and then discarding it.  A repair
call is made only while `attempts <= MAX_REPAIR_ATTEMPTS`; if it throws, the
surrounding `catch` records a second log entry for the same attempt. -/
def executeWBCGo (gen : Nat → Except String String)
    (check : Nat → String → Except String BuildCheckResult)
    (llm : Nat → String → String → Except String String) :
    Nat → Nat → String → List String → List String → List String →
    GenerationResult String × List String × List String
  | 0, attempts, lastError, log, binputs, routs =>
      ({ success := false, data := none, error := some lastError,
         attempts := attempts, repairLog := log }, binputs, routs)
  | remaining + 1, attempts, _, log, binputs, routs =>
      let a := attempts + 1
      match gen attempts with
      | .error e =>
          executeWBCGo gen check llm remaining a e
            (log ++ ["Attempt " ++ toString a ++ ": " ++ e]) binputs routs
      | .ok code =>
          let binputs1 := binputs ++ [code]
          match check attempts code with
          | .error e =>
              executeWBCGo gen check llm remaining a e
                (log ++ ["Attempt " ++ toString a ++ ": " ++ e]) binputs1 routs
          | .ok res =>
              if res.success then
                ({ success := true, data := some code, error := none,
                   attempts := a, repairLog := log }, binputs1, routs)
              else
                let e := buildFailError res
                let log1 := log ++ ["Attempt " ++ toString a ++ ": Build failed - " ++ e]
                if a ≤ MAX_REPAIR_ATTEMPTS then
                  match repairCode llm attempts code e with
                  | .ok fixedCode =>
                      executeWBCGo gen check llm remaining a e log1 binputs1
                        (routs ++ [fixedCode])
                  | .error e2 =>
                      executeWBCGo gen check llm remaining a e2
                        (log1 ++ ["Attempt " ++ toString a ++ ": " ++ e2]) binputs1 routs
                else
                  executeWBCGo gen check llm remaining a e log1 binputs1 routs

/-- `SelfHealingCortex.executeWithBuildCheck(generator, buildChecker)` with
the completion collaborator explicit. -/
def executeWithBuildCheck (gen : Nat → Except String String)
    (check : Nat → String → Except String BuildCheckResult)
    (llm : Nat → String → String → Except String String) :
    GenerationResult String :=
  (executeWBCGo gen check llm (MAX_REPAIR_ATTEMPTS + 1) 0 "" [] [] []).1

/-- The codes `executeWithBuildCheck` submits to the build checker, in order. -/
def wbcBuildInputs (gen : Nat → Except String String)
    (check : Nat → String → Except String BuildCheckResult)
    (llm : Nat → String → String → Except String String) : List String :=
  (executeWBCGo gen check llm (MAX_REPAIR_ATTEMPTS + 1) 0 "" [] [] []).2.1

/-- The outputs of the repair calls `executeWithBuildCheck` makes, in order. -/
def wbcRepairOutputs (gen : Nat → Except String String)
    (check : Nat → String → Except String BuildCheckResult)
    (llm : Nat → String → String → Except String String) : List String :=
  (executeWBCGo gen check llm (MAX_REPAIR_ATTEMPTS + 1) 0 "" [] [] []).2.2

/-- Outcome of iteration `k` of `executeWithBuildCheck` when the repair call
(if any) does not throw: `some (lastError, logEntry)` when the attempt fails,
`none` when it succeeds. -/
def wbcAttemptLogEntry (gen : Nat → Except String String)
    (check : Nat → String → Except String BuildCheckResult) (k : Nat) :
    Option (String × String) :=
  match gen k with
  | .error e => some (e, "Attempt " ++ toString (k + 1) ++ ": " ++ e)
  | .ok code =>
      match check k code with
      | .error e => some (e, "Attempt " ++ toString (k + 1) ++ ": " ++ e)
      | .ok res =>
          if res.success then none
          else
            let e := buildFailError res
            some (e, "Attempt " ++ toString (k + 1) ++ ": Build failed - " ++ e)

/-- A field of a Strand, as used by `spawn.ts` (`\x7b name, type \x7d`). -/
structure HelixField where
  name : String
  ftype : String
deriving DecidableEq, Repr

/-- The four layouts `detectViewType` can return. -/
inductive ViewType where
  | gallery : ViewType
  | kanban : ViewType
  | feed : ViewType
  | grid : ViewType
deriving DecidableEq, Repr

/-- The image-ish token set of `detectViewType`. -/
def imageTokens : List String :=
  ["image", "photo", "avatar", "thumbnail", "cover", "picture", "img"]

/-- The status-ish token set of `detectViewType`. -/
def statusTokens : List String :=
  ["status", "stage", "phase", "state", "progress"]

/-- The title-ish token set of `detectViewType`. -/
def titleTokens : List String :=
  ["title", "name", "headline"]

/-- The body-ish token set of `detectViewType`. -/
def contentTokens : List String :=
  ["body", "content", "description", "message", "text", "note"]

/-- `String.prototype.toLowerCase` restricted to ASCII (field names here are
ASCII identifiers). -/
def jsToLower (s : String) : String :=
  String.mk (s.toList.map
    (fun c => if 65 ≤ c.toNat && c.toNat ≤ 90 then Char.ofNat (c.toNat + 32) else c))

/-- `detectViewType` from `spawn.ts`: lowercase the field names, then first
match wins in the order gallery (image-ish name present), kanban (status-ish
name present), feed (title-ish and body-ish names present), grid (default). -/
def detectViewType (fields : List HelixField) : ViewType :=
  let fieldNames := fields.map (fun f => jsToLower f.name)
  if fieldNames.any (fun n => imageTokens.contains n) then .gallery
  else if fieldNames.any (fun n => statusTokens.contains n) then .kanban
  else
    let hasTitle := fieldNames.any (fun n => titleTokens.contains n)
    let hasContent := fieldNames.any (fun n => contentTokens.contains n)
    if hasTitle && hasContent then .feed
    else .grid

/-- A Strand of the parsed Blueprint (`ast.strands` element). -/
structure HelixStrand where
  name : String
  fields : List HelixField
deriving DecidableEq, Repr

/-- A View of the parsed Blueprint: a name and a string-to-string property
map. -/
structure HelixView where
  name : String
  properties : List (String × String)
deriving DecidableEq, Repr

/-- Property lookup on a View (`view.properties[key]`; `none` models
`undefined`). -/
def propLookup (props : List (String × String)) (key : String) : Option String :=
  (props.find? (fun p => p.1 == key)).map (fun p => p.2)

/-- `s.split(".")[0]`: the prefix of `s` before the first `.`. -/
def jsSplitHead (s : String) : String :=
  String.mk (s.toList.takeWhile (fun c => c ≠ '.'))

/-- The strand resolution of `generateStack` (generate.ts): `listProp =
view.properties["list"] || ""`, `strandName = listProp.split(".")[0] ||
ast.strands[0]?.name || "Item"`, `strand = ast.strands.find(s => s.name ===
strandName) || ast.strands[0]` (falsy strings coerce to the next operand of
`||`; `none` models `undefined`). -/
def resolveViewStrandGenerate (strands : List HelixStrand) (view : HelixView) :
    Option HelixStrand :=
  let listProp := (propLookup view.properties ("list")).getD ""
  let c1 := jsSplitHead listProp
  let strandName :=
    if c1 ≠ "" then c1
    else
      match strands.head? with
      | some s0 => if s0.name ≠ "" then s0.name else "Item"
      | none => "Item"
  match strands.find? (fun s => s.name == strandName) with
  | some s => some s
  | none => strands.head?

/-- The strand resolution of `spawnApp` (spawn.ts): `strandName =
view.properties["list"]?.split(".")[0] || ast.strands[0]?.name`, `strand =
ast.strands.find(s => s.name === strandName) || ast.strands[0]`. -/
def resolveViewStrandSpawn (strands : List HelixStrand) (view : HelixView) :
    Option HelixStrand :=
  let part : Option String := (propLookup view.properties ("list")).map jsSplitHead
  let strandName : Option String :=
    match part with
    | some p => if p ≠ "" then some p else strands.head?.map (fun s => s.name)
    | none => strands.head?.map (fun s => s.name)
  match strands.find? (fun s => some s.name == strandName) with
  | some s => some s
  | none => strands.head?

/-- Mirror of `PluginRegistryEntry` from `core/types.ts`. -/
structure PluginRegistryEntry where
  name : String
  target : String
  version : String
  modulePath : String
  isBuiltIn : Bool
deriving DecidableEq, Repr

/-- The `BUILT_IN_GENERATORS` constant of `registry.ts`. -/
def BUILT_IN_GENERATORS : List PluginRegistryEntry :=
  [{ name := "helix-gen-flutter", target := "flutter", version := "10.0.0",
     modulePath := "../generators/flutter", isBuiltIn := true },
   { name := "helix-gen-nextjs", target := "web", version := "10.0.0",
     modulePath := "../commands/spawn", isBuiltIn := true }]

/-- `Map.prototype.set` on an insertion-ordered association list: replace the
entry of an existing key in place, otherwise append. -/
def mapSet {E : Type} : List (String × E) → String → E → List (String × E)
  | [], k, v => [(k, v)]
  | p :: rest, k, v => if p.1 = k then (k, v) :: rest else p :: mapSet rest k v

/-- `Map.prototype.get`. -/
def mapGet {E : Type} (m : List (String × E)) (k : String) : Option E :=
  (m.find? (fun p => p.1 == k)).map (fun p => p.2)

/-- First-occurrence `String.prototype.replace` with a string pattern:
index of the first occurrence of `pat`. -/
def findSubIdx (pat : List Char) : List Char → Nat → Option Nat
  | [], i => if pat.isEmpty then some i else none
  | c :: rest, i =>
      if pat.isPrefixOf (c :: rest) then some i else findSubIdx pat rest (i + 1)

/-- `s.replace(pat, repl)` for a string `pat` (first occurrence only). -/
def replaceFirst (s pat repl : String) : String :=
  match findSubIdx pat.toList s.toList 0 with
  | none => s
  | some i =>
      String.mk (s.toList.take i ++ repl.toList ++ s.toList.drop (i + pat.length))

/-- The mutable state of a `PluginRegistry` instance: the `plugins` map and
the key set of the `loadedPlugins` cache (the cached module instances
themselves live outside the model). -/
structure RegistryState where
  plugins : List (String × PluginRegistryEntry)
  loadedTargets : List String

/-- The registry constructor: register every built-in generator under its
target. -/
def newPluginRegistry : RegistryState :=
  { plugins := BUILT_IN_GENERATORS.foldl (fun m p => mapSet m p.target p) [],
    loadedTargets := [] }

/-- What the file system and manifest of one candidate external plugin look
like: whether its module directory exists in `node_modules`, whether its
`package.json` can be read, and its `helix.target` declaration (`none` models
an absent field). -/
structure ExternalPkgInfo where
  moduleExists : Bool
  manifestReadOk : Bool
  helixTarget : Option String

/-- `PluginRegistry.registerExternalPlugin(name, version, projectPath)`:
skipped when the module is missing or its manifest unreadable; otherwise the
target is `pluginPkg.helix?.target || name.replace("helix-gen-", "")` and the
entry is `set` into the `plugins` map under that target. -/
def registerExternalPlugin (st : RegistryState) (projectPath name version : String)
    (pkg : ExternalPkgInfo) : RegistryState :=
  if !pkg.moduleExists then st
  else if !pkg.manifestReadOk then st
  else
    let target :=
      match pkg.helixTarget with
      | some t => if t ≠ "" then t else replaceFirst name ("helix-gen-") ""
      | none => replaceFirst name ("helix-gen-") ""
    { st with
      plugins := mapSet st.plugins target
        { name := name, target := target, version := version,
          modulePath := projectPath ++ "/node_modules/" ++ name,
          isBuiltIn := false } }

/-- `PluginRegistry.scanForPlugins(projectPath)`: nothing happens without a
readable `package.json`; otherwise every dependency whose name starts with
`helix-gen-` and is not a built-in package name is registered as an external
plugin.  `world` describes the candidate packages on disk. -/
def scanForPlugins (st : RegistryState) (projectPath : String)
    (hasPackageJson readPkgOk : Bool) (deps : List (String × String))
    (world : String → ExternalPkgInfo) : RegistryState :=
  if !hasPackageJson then st
  else if !readPkgOk then st
  else
    deps.foldl
      (fun s nv =>
        if (("helix-gen-".toList).isPrefixOf nv.1.toList) &&
            !(BUILT_IN_GENERATORS.any (fun p => p.name == nv.1)) then
          registerExternalPlugin s projectPath nv.1 nv.2 (world nv.1)
        else s)
      st

/-- `PluginRegistry.loadGenerator(target)`: reads the `plugins` map and, when
the dynamic import resolves to a plugin shape (`loadOk`), caches it under the
target.  The `plugins` map is never written. -/
def loadGenerator (st : RegistryState) (target : String) (loadOk : Bool) :
    RegistryState :=
  if st.loadedTargets.contains target then st
  else
    match mapGet st.plugins target with
    | none => st
    | some _ =>
        if loadOk then { st with loadedTargets := st.loadedTargets ++ [target] }
        else st

/-- The registry operations a caller can perform after construction. -/
inductive RegistryOp where
  | scan (projectPath : String) (hasPackageJson readPkgOk : Bool)
      (deps : List (String × String)) (world : String → ExternalPkgInfo)
  | registerExt (projectPath name version : String) (pkg : ExternalPkgInfo)
  | load (target : String) (loadOk : Bool)

/-- One registry operation. -/
def applyOp (st : RegistryState) : RegistryOp → RegistryState
  | .scan pp h r deps w => scanForPlugins st pp h r deps w
  | .registerExt pp n v pkg => registerExternalPlugin st pp n v pkg
  | .load t ok => loadGenerator st t ok

/-- A sequence of registry operations. -/
def applyOps (st : RegistryState) (ops : List RegistryOp) : RegistryState :=
  ops.foldl applyOp st

/-- `PluginRegistry.hasTarget`. -/
def hasTarget (st : RegistryState) (target : String) : Bool :=
  (mapGet st.plugins target).isSome

/-- `PluginRegistry.getPlugin`. -/
def getPlugin (st : RegistryState) (target : String) : Option PluginRegistryEntry :=
  mapGet st.plugins target

/-- Mirror of `GeneratedFile` from `core/types.ts`; the optional
`overwrite?: boolean` is falsy when absent, so it is modelled as a `Bool`
that is `false` in that case. -/
structure GeneratedFile where
  path : String
  content : String
  overwrite : Bool
deriving DecidableEq, Repr

/-- The options of `writeFileSystemMap`; absent options are falsy. -/
structure WriteOptions where
  silent : Bool
  overwriteExisting : Bool
deriving DecidableEq, Repr

/-- `path.join(projectPath, file.path)` for the purposes of this model. -/
def pathJoin (a b : String) : String := a ++ "/" ++ b

/-- Disk contents (path to file content) plus the `results` accumulator of
`writeFileSystemMap`. -/
structure WriteState where
  disk : String → Option String
  written : Nat
  skipped : Nat
  errors : List String

/-- One iteration of the `writeFileSystemMap` loop: if the target path exists
and neither the file's `overwrite` flag nor `options.overwriteExisting` is
set, count the file as skipped and leave the disk alone; otherwise write the
content and count it as written. -/
def writeOne (opts : WriteOptions) (projectPath : String) (st : WriteState)
    (file : GeneratedFile) : WriteState :=
  let fullPath := pathJoin projectPath file.path
  let fileExists := (st.disk fullPath).isSome
  if fileExists && !file.overwrite && !opts.overwriteExisting then
    { st with skipped := st.skipped + 1 }
  else
    { st with
      disk := fun p => if p = fullPath then some file.content else st.disk p,
      written := st.written + 1 }

/-- `writeFileSystemMap(projectPath, fsMap, options)` over an explicit disk
model (directory creation is not modelled; the pure disk never throws, so the
`errors` list stays empty). -/
def writeFileSystemMap (projectPath : String) (files : List GeneratedFile)
    (opts : WriteOptions) (disk : String → Option String) : WriteState :=
  files.foldl (writeOne opts projectPath)
    { disk := disk, written := 0, skipped := 0, errors := [] }

/-! ## Helper lemmas -/

theorem listAny_congr {α : Type} (p : α → Bool) {l1 l2 : List α}
    (h : ∀ x, x ∈ l1 ↔ x ∈ l2) : l1.any p = l2.any p := by
  cases ha : l1.any p <;> cases hb : l2.any p <;> try rfl
  · rw [List.any_eq_true] at hb
    obtain ⟨x, hx, hp⟩ := hb
    rw [List.any_eq_false] at ha
    exact absurd hp (by simpa using ha x ((h x).mpr hx))
  · rw [List.any_eq_true] at ha
    obtain ⟨x, hx, hp⟩ := ha
    rw [List.any_eq_false] at hb
    exact absurd hp (by simpa using hb x ((h x).mp hx))

theorem foldl_preserves_mem {σ α : Type} (P : σ → Prop) (f : σ → α → σ) :
    ∀ (l : List α) (s : σ), (∀ a ∈ l, ∀ s', P s' → P (f s' a)) → P s →
      P (l.foldl f s) := by
  intro l
  induction l with
  | nil => intro s _ hs; simpa using hs
  | cons a t ih =>
      intro s hf hs
      simpa using ih (f s a) (fun b hb s' h' => hf b (List.mem_cons_of_mem a hb) s' h')
        (hf a (List.mem_cons_self a t) s hs)

theorem mapGet_nil {E : Type} (k : String) : mapGet ([] : List (String × E)) k = none :=
  rfl

theorem mapGet_cons {E : Type} (x : String × E) (t : List (String × E)) (k : String) :
    mapGet (x :: t) k = if x.1 = k then some x.2 else mapGet t k := by
  by_cases h : x.1 = k
  · have hb : (x.1 == k) = true := beq_iff_eq.mpr h
    simp [mapGet, List.find?, hb, h]
  · have hb : (x.1 == k) = false := beq_eq_false_iff_ne.mpr h
    simp [mapGet, List.find?, hb, h]

theorem mapGet_mapSet {E : Type} (m : List (String × E)) (k k' : String) (v : E) :
    mapGet (mapSet m k v) k' = if k' = k then some v else mapGet m k' := by
  induction m with
  | nil =>
      rw [show mapSet ([] : List (String × E)) k v = [(k, v)] from rfl, mapGet_cons]
      by_cases h : k' = k
      · rw [if_pos h.symm, if_pos h]
      · rw [if_neg (fun he => h he.symm), if_neg h, mapGet_nil]
  | cons p t ih =>
      by_cases hp : p.1 = k
      · rw [show mapSet (p :: t) k v = (k, v) :: t by rw [mapSet, if_pos hp], mapGet_cons]
        by_cases h : k' = k
        · rw [if_pos h.symm, if_pos h]
        · rw [if_neg (fun he => h he.symm), if_neg h, mapGet_cons,
            if_neg (fun he => h (he.symm.trans hp))]
      · rw [show mapSet (p :: t) k v = p :: mapSet t k v by rw [mapSet, if_neg hp],
          mapGet_cons]
        by_cases hq : p.1 = k'
        · have h : ¬ k' = k := fun he => hp (hq.trans he)
          rw [if_pos hq, if_neg h, mapGet_cons, if_pos hq]
        · rw [if_neg hq, ih]
          by_cases h : k' = k
          · rw [if_pos h, if_pos h]
          · rw [if_neg h, if_neg h, mapGet_cons, if_neg hq]

/-- A failing attempt advances the `execute` loop: one iteration starting at
attempt index `k` becomes the rest of the loop with the attempt's error and
log entry recorded. -/
theorem executeGo_step_fail {T : Type} (gen : Nat → Except String T)
    (val : Nat → T → Except String Unit) (k : Nat) (e l : String)
    (h : attemptLogEntry gen val k = some (e, l)) (fuel : Nat) (le : String)
    (log : List String) :
    executeGo gen val (fuel + 1) k le log = executeGo gen val fuel (k + 1) e (log ++ [l]) := by
  cases hg : gen k with
  | error e' =>
      have hA : attemptLogEntry gen val k =
          some (e', "Attempt " ++ toString (k + 1) ++ ": Generation failed - " ++ e') := by
        simp [attemptLogEntry, hg]
      rw [hA] at h
      simp only [Option.some.injEq, Prod.mk.injEq] at h
      obtain ⟨he, hl⟩ := h
      subst he
      subst hl
      simp [executeGo, hg]
  | ok r =>
      cases hv : val k r with
      | ok u =>
          have hA : attemptLogEntry gen val k = none := by simp [attemptLogEntry, hg, hv]
          rw [hA] at h
          exact absurd h (by simp)
      | error e' =>
          have hA : attemptLogEntry gen val k =
              some (e', "Attempt " ++ toString (k + 1) ++ ": Validation failed - " ++ e') := by
            simp [attemptLogEntry, hg, hv]
          rw [hA] at h
          simp only [Option.some.injEq, Prod.mk.injEq] at h
          obtain ⟨he, hl⟩ := h
          subst he
          subst hl
          simp [executeGo, hg, hv]

/-- A succeeding attempt ends the `execute` loop with a success record. -/
theorem executeGo_step_ok {T : Type} (gen : Nat → Except String T)
    (val : Nat → T → Except String Unit) (k : Nat) (r : T)
    (hg : gen k = .ok r) (hv : exceptOk (val k r) = true) (fuel : Nat)
    (le : String) (log : List String) :
    executeGo gen val (fuel + 1) k le log =
      { success := true, data := some r, error := none, attempts := k + 1,
        repairLog := log } := by
  obtain ⟨u, hu⟩ := (exceptOk_true_iff _).mp hv
  simp [executeGo, hg, hu]

/-! ## Claim theorems -/

/-- C1: for `SelfHealingCortex.execute` with the repair bound
`MAX_REPAIR_ATTEMPTS = 2`, a generator that always succeeds and a validator
that throws on exactly the first `N` attempts give a result with
`attempts = min (N+1) (MAX_REPAIR_ATTEMPTS+1)` and `success = true` exactly
when `N ≤ MAX_REPAIR_ATTEMPTS`. -/
theorem C1_execute_attempts_min_success_iff {T : Type} (N : Nat)
    (gen : Nat → Except String T) (val : Nat → T → Except String Unit)
    (c : Option String)
    (hgen : ∀ k, exceptOk (gen k) = true)
    (hfail : ∀ k r, k < N → exceptOk (val k r) = false)
    (hsucc : ∀ k r, N ≤ k → exceptOk (val k r) = true) :
    (execute gen val c).attempts = min (N + 1) (MAX_REPAIR_ATTEMPTS + 1) ∧
    ((execute gen val c).success = true ↔ N ≤ MAX_REPAIR_ATTEMPTS) := by
  obtain ⟨r0, h0⟩ := (exceptOk_true_iff _).mp (hgen 0)
  obtain ⟨r1, h1⟩ := (exceptOk_true_iff _).mp (hgen 1)
  obtain ⟨r2, h2⟩ := (exceptOk_true_iff _).mp (hgen 2)
  have step : ∀ k, k < N → ∀ fuel le log,
      executeGo gen val (fuel + 1) k le log =
        executeGo gen val fuel (k + 1)
          ((attemptLogEntry gen val k).getD ("", "")).1
          (log ++ [((attemptLogEntry gen val k).getD ("", "")).2]) := by
    intro k hk fuel le log
    obtain ⟨rk, hrk⟩ := (exceptOk_true_iff _).mp (hgen k)
    obtain ⟨ek, hek⟩ := (exceptOk_false_iff _).mp (hfail k rk hk)
    have hlog : attemptLogEntry gen val k =
        some (ek, "Attempt " ++ toString (k + 1) ++ ": Validation failed - " ++ ek) := by
      simp [attemptLogEntry, hrk, hek]
    rw [executeGo_step_fail gen val k _ _ hlog fuel le log, hlog]
    rfl
  rcases N with _ | _ | _ | n
  · rw [execute, show MAX_REPAIR_ATTEMPTS + 1 = 2 + 1 from rfl,
      executeGo_step_ok gen val 0 r0 h0 (hsucc 0 r0 (by omega))]
    simp [MAX_REPAIR_ATTEMPTS]
  · rw [execute, show MAX_REPAIR_ATTEMPTS + 1 = 2 + 1 from rfl,
      step 0 (by omega), executeGo_step_ok gen val 1 r1 h1 (hsucc 1 r1 (by omega))]
    simp [MAX_REPAIR_ATTEMPTS]
  · rw [execute, show MAX_REPAIR_ATTEMPTS + 1 = 2 + 1 from rfl,
      step 0 (by omega), step 1 (by omega),
      executeGo_step_ok gen val 2 r2 h2 (hsucc 2 r2 (by omega))]
    simp [MAX_REPAIR_ATTEMPTS]
  · rw [execute, show MAX_REPAIR_ATTEMPTS + 1 = 2 + 1 from rfl,
      step 0 (by omega), step 1 (by omega), step 2 (by omega)]
    simp [executeGo, MAX_REPAIR_ATTEMPTS]

/-- The success/data/attempts components of the `execute` loop depend on the
validator only through which of its calls throw, never through the error
values thrown (and not on the `lastError`/log accumulators): no error
information flows back into the generator. -/
theorem executeGo_error_noninterference {T : Type} (gen : Nat → Except String T)
    (valA valB : Nat → T → Except String Unit)
    (h : ∀ k r, exceptOk (valA k r) = exceptOk (valB k r)) :
    ∀ (fuel attempts : Nat) (leA leB : String) (logA logB : List String),
      (executeGo gen valA fuel attempts leA logA).success
        = (executeGo gen valB fuel attempts leB logB).success ∧
      (executeGo gen valA fuel attempts leA logA).data
        = (executeGo gen valB fuel attempts leB logB).data ∧
      (executeGo gen valA fuel attempts leA logA).attempts
        = (executeGo gen valB fuel attempts leB logB).attempts := by
  intro fuel
  induction fuel with
  | zero => intro attempts leA leB logA logB; simp [executeGo]
  | succ n ih =>
      intro attempts leA leB logA logB
      cases hg : gen attempts with
      | error e =>
          simpa [executeGo, hg] using ih (attempts + 1) e e
            (logA ++ ["Attempt " ++ toString (attempts + 1) ++ ": Generation failed - " ++ e])
            (logB ++ ["Attempt " ++ toString (attempts + 1) ++ ": Generation failed - " ++ e])
      | ok r =>
          cases hA : valA attempts r with
          | ok u =>
              obtain ⟨u2, hB⟩ := (exceptOk_true_iff _).mp
                (by rw [← h attempts r, hA]; rfl)
              simp [executeGo, hg, hA, hB]
          | error eA =>
              obtain ⟨eB, hB⟩ := (exceptOk_false_iff _).mp
                (by rw [← h attempts r, hA]; rfl)
              simpa [executeGo, hg, hA, hB] using ih (attempts + 1) eA eB
                (logA ++ ["Attempt " ++ toString (attempts + 1) ++ ": Validation failed - " ++ eA])
                (logB ++ ["Attempt " ++ toString (attempts + 1) ++ ": Validation failed - " ++ eB])

/-- Witness for C1 at `N = 1` with a concrete generator and validator. -/
theorem C1_execute_attempts_min_success_iff_witness :
    (execute (fun k => Except.ok k)
        (fun k (_ : Nat) => if k < 1 then Except.error "E" else Except.ok ()) none).attempts
        = min (1 + 1) (MAX_REPAIR_ATTEMPTS + 1) ∧
    ((execute (fun k => Except.ok k)
        (fun k (_ : Nat) => if k < 1 then Except.error "E" else Except.ok ()) none).success = true ↔
      1 ≤ MAX_REPAIR_ATTEMPTS) :=
  C1_execute_attempts_min_success_iff 1 _ _ none (fun _ => rfl)
    (fun k _ hk => by rw [if_pos hk]; rfl)
    (fun k _ hk => by rw [if_neg (by omega)]; rfl)

/-- C2 counterexample: in the generic `SelfHealingCortex.execute`, the next
generator invocation after a failure does not receive the preceding attempt's
error.  The source invokes `generator()` with no arguments and never reads
`repairContext`, so no error can be passed; concretely, two runs whose first
attempts fail with different validation errors (`"ERROR-A"` vs `"ERROR-B"`,
visible in the differing repair logs) make exactly the same second generator
call and return the same data, the value generated for invocation index 1. -/
theorem C2_counterexample_execute_context_free :
    (execute (fun k => Except.ok k)
        (fun _ r => if r = 0 then Except.error "ERROR-A" else Except.ok ()) none).data
      = some 1 ∧
    (execute (fun k => Except.ok k)
        (fun _ r => if r = 0 then Except.error "ERROR-B" else Except.ok ()) none).data
      = some 1 ∧
    (execute (fun k => Except.ok k)
        (fun _ r => if r = 0 then Except.error "ERROR-A" else Except.ok ()) none).repairLog
      ≠ (execute (fun k => Except.ok k)
          (fun _ r => if r = 0 then Except.error "ERROR-B" else Except.ok ()) none).repairLog :=
  ⟨by decide, by decide, by decide⟩

/-- C2 amended: only `executeJSON` feeds the preceding attempt's error into
the next generation call — after a failed attempt, the next `createCompletion`
invocation receives `createRepairPrompt(userPrompt, lastError)`, which embeds
that error; the generic `execute` re-invokes its zero-argument generator with
no error context (`repairContext` is unused), so its success, data and
attempts are invariant under changing the error values of the failing
validator calls. -/
theorem C2_amended_repair_context_flow :
    (∀ (T : Type) (gen : Nat → Except String T)
        (valA valB : Nat → T → Except String Unit) (cA cB : Option String),
      (∀ k r, exceptOk (valA k r) = exceptOk (valB k r)) →
      (execute gen valA cA).success = (execute gen valB cB).success ∧
      (execute gen valA cA).data = (execute gen valB cB).data ∧
      (execute gen valA cA).attempts = (execute gen valB cB).attempts) ∧
    (∀ (T : Type) (llm : Nat → String → String → Except String String)
        (pv : Json → Except String T) (sys user e0 : String),
      jsonStep llm pv sys 0 user = .error e0 →
      List.get? (executeJSONPrompts llm sys user pv) 1
        = some (createRepairPrompt user e0)) ∧
    (∀ (T : Type) (llm : Nat → String → String → Except String String)
        (pv : Json → Except String T) (sys user e0 e1 : String),
      jsonStep llm pv sys 0 user = .error e0 →
      jsonStep llm pv sys 1 (createRepairPrompt user e0) = .error e1 →
      List.get? (executeJSONPrompts llm sys user pv) 2
        = some (createRepairPrompt user e1)) := by
  refine ⟨?_, ?_, ?_⟩
  · intro T gen valA valB cA cB h
    exact executeGo_error_noninterference gen valA valB h
      (MAX_REPAIR_ATTEMPTS + 1) 0 "" "" [] []
  · intro T llm pv sys user e0 h0
    unfold executeJSONPrompts
    rw [show MAX_REPAIR_ATTEMPTS + 1 = 2 + 1 from rfl]
    cases h1 : jsonStep llm pv sys 1 (createRepairPrompt user e0) with
    | ok v => simp [executeJSONGo, h0, h1, MAX_REPAIR_ATTEMPTS, List.get?]
    | error e1 =>
        cases h2 : jsonStep llm pv sys 2 (createRepairPrompt user e1) with
        | ok v => simp [executeJSONGo, h0, h1, h2, MAX_REPAIR_ATTEMPTS, List.get?]
        | error e2 => simp [executeJSONGo, h0, h1, h2, MAX_REPAIR_ATTEMPTS, List.get?]
  · intro T llm pv sys user e0 e1 h0 h1
    unfold executeJSONPrompts
    rw [show MAX_REPAIR_ATTEMPTS + 1 = 2 + 1 from rfl]
    cases h2 : jsonStep llm pv sys 2 (createRepairPrompt user e1) with
    | ok v => simp [executeJSONGo, h0, h1, h2, MAX_REPAIR_ATTEMPTS, List.get?]
    | error e2 => simp [executeJSONGo, h0, h1, h2, MAX_REPAIR_ATTEMPTS, List.get?]

/-- Witness for C2's amended theorem: the non-interference part applied to the
`"ERROR-A"`/`"ERROR-B"` validator pair, and the `executeJSON` part applied to
a completion that always returns a non-JSON response. -/
theorem C2_amended_repair_context_flow_witness :
    ((execute (fun k => Except.ok k)
        (fun _ r => if r = 0 then Except.error "ERROR-A" else Except.ok ()) none).data
      = (execute (fun k => Except.ok k)
          (fun _ r => if r = 0 then Except.error "ERROR-B" else Except.ok ()) none).data) ∧
    List.get? (executeJSONPrompts (fun _ _ _ => Except.ok "no json here") "SYS" "USER"
        (fun _ => Except.ok (0 : Nat))) 1
      = some (createRepairPrompt "USER" "JSONParseError") :=
  ⟨(C2_amended_repair_context_flow.1 Nat (fun k => Except.ok k)
      (fun _ r => if r = 0 then Except.error "ERROR-A" else Except.ok ())
      (fun _ r => if r = 0 then Except.error "ERROR-B" else Except.ok ()) none none
      (fun k r => by by_cases hr : r = 0 <;> simp [hr, exceptOk])).2.1,
    C2_amended_repair_context_flow.2.1 Nat (fun _ _ _ => Except.ok "no json here")
      (fun _ => Except.ok (0 : Nat)) "SYS" "USER" "JSONParseError" rfl⟩

/-- C3 (evaluation at the failing input): in `executeWithBuildCheck`, the code
submitted to each build check is the fresh output of `generator()`, never the
output of the preceding `repairCode` call, because each loop iteration begins
with `currentCode = await generator()`, overwriting the repaired code.  With a
generator returning `"0"`, `"1"`, `"2"` on its three calls, a build checker
that always fails with `"ERR"`, and a repair call that always returns
`"FIXED"`, the build checker receives `["0", "1", "2"]`; the two repair calls
are made and return `"FIXED"`, which never reaches the build checker. -/
theorem C3_repair_output_never_reaches_build_check :
    wbcBuildInputs (fun k => Except.ok (toString k))
        (fun _ _ => Except.ok ⟨false, some "ERR"⟩) (fun _ _ _ => Except.ok "FIXED")
      = ["0", "1", "2"] ∧
    wbcRepairOutputs (fun k => Except.ok (toString k))
        (fun _ _ => Except.ok ⟨false, some "ERR"⟩) (fun _ _ _ => Except.ok "FIXED")
      = ["FIXED", "FIXED"] ∧
    ¬ ("FIXED" ∈ wbcBuildInputs (fun k => Except.ok (toString k))
        (fun _ _ => Except.ok ⟨false, some "ERR"⟩) (fun _ _ _ => Except.ok "FIXED")) ∧
    executeWithBuildCheck (fun k => Except.ok (toString k))
        (fun _ _ => Except.ok ⟨false, some "ERR"⟩) (fun _ _ _ => Except.ok "FIXED")
      = { success := false, data := none, error := some "ERR", attempts := 3,
          repairLog := ["Attempt 1: Build failed - ERR",
                        "Attempt 2: Build failed - ERR",
                        "Attempt 3: Build failed - ERR"] } :=
  ⟨by decide, by decide, by decide, by decide⟩

/-- A failing iteration advances the `executeWithBuildCheck` loop (provided
the repair call, if one happens, does not throw): the attempt's error and log
entry are recorded and the loop continues with some extended traces. -/
theorem executeWBCGo_step_fail (gen : Nat → Except String String)
    (check : Nat → String → Except String BuildCheckResult)
    (llm : Nat → String → String → Except String String) (k : Nat) (e l : String)
    (hllm : ∀ j s u, exceptOk (llm j s u) = true)
    (h : wbcAttemptLogEntry gen check k = some (e, l)) :
    ∀ (fuel : Nat) (le : String) (log b r : List String), ∃ b' r',
      executeWBCGo gen check llm (fuel + 1) k le log b r
        = executeWBCGo gen check llm fuel (k + 1) e (log ++ [l]) b' r' := by
  intro fuel le log b r
  cases hg : gen k with
  | error e' =>
      have hA : wbcAttemptLogEntry gen check k =
          some (e', "Attempt " ++ toString (k + 1) ++ ": " ++ e') := by
        simp [wbcAttemptLogEntry, hg]
      rw [hA] at h
      simp only [Option.some.injEq, Prod.mk.injEq] at h
      obtain ⟨he, hl⟩ := h
      subst he
      subst hl
      exact ⟨b, r, by simp [executeWBCGo, hg]⟩
  | ok code =>
      cases hc : check k code with
      | error e' =>
          have hA : wbcAttemptLogEntry gen check k =
              some (e', "Attempt " ++ toString (k + 1) ++ ": " ++ e') := by
            simp [wbcAttemptLogEntry, hg, hc]
          rw [hA] at h
          simp only [Option.some.injEq, Prod.mk.injEq] at h
          obtain ⟨he, hl⟩ := h
          subst he
          subst hl
          exact ⟨b ++ [code], r, by simp [executeWBCGo, hg, hc]⟩
      | ok res =>
          by_cases hs : res.success = true
          · have hA : wbcAttemptLogEntry gen check k = none := by
              simp [wbcAttemptLogEntry, hg, hc, hs]
            rw [hA] at h
            exact absurd h (by simp)
          · have hA : wbcAttemptLogEntry gen check k =
                some (buildFailError res,
                  "Attempt " ++ toString (k + 1) ++ ": Build failed - " ++ buildFailError res) := by
              simp [wbcAttemptLogEntry, hg, hc, hs]
            rw [hA] at h
            simp only [Option.some.injEq, Prod.mk.injEq] at h
            obtain ⟨he, hl⟩ := h
            subst he
            subst hl
            by_cases ha : k + 1 ≤ MAX_REPAIR_ATTEMPTS
            · obtain ⟨resp, hresp⟩ := (exceptOk_true_iff _).mp
                (hllm k repairSystemPrompt (repairUserPrompt code (buildFailError res)))
              have hrc : repairCode llm k code (buildFailError res)
                  = .ok (cleanCodeResponse resp) := by
                simp [repairCode, hresp, Except.map]
              exact ⟨b ++ [code], r ++ [cleanCodeResponse resp],
                by simp [executeWBCGo, hg, hc, hs, ha, hrc]⟩
            · exact ⟨b ++ [code], r, by simp [executeWBCGo, hg, hc, hs, ha]⟩

/-- C4: `execute` and `executeWithBuildCheck` return a `GenerationResult`
value for every generator and validator/build-checker — throwing collaborators
are absorbed as failed attempts — and on exhaustion (all three attempts fail)
the result is `\x7b success: false, error: lastError, attempts, repairLog \x7d`
with the error of the last attempt and the three per-attempt log entries.
(For `executeWithBuildCheck` the repair calls are assumed not to throw; a
throwing repair call adds an extra log entry and replaces the recorded
error.) -/
theorem C4_exhaustion_returns_failure_result :
    (∀ (T : Type) (gen : Nat → Except String T) (val : Nat → T → Except String Unit)
        (c : Option String) (e0 l0 e1 l1 e2 l2 : String),
      attemptLogEntry gen val 0 = some (e0, l0) →
      attemptLogEntry gen val 1 = some (e1, l1) →
      attemptLogEntry gen val 2 = some (e2, l2) →
      execute gen val c =
        { success := false, data := none, error := some e2, attempts := 3,
          repairLog := [l0, l1, l2] }) ∧
    (∀ (gen : Nat → Except String String)
        (check : Nat → String → Except String BuildCheckResult)
        (llm : Nat → String → String → Except String String) (e0 l0 e1 l1 e2 l2 : String),
      (∀ j s u, exceptOk (llm j s u) = true) →
      wbcAttemptLogEntry gen check 0 = some (e0, l0) →
      wbcAttemptLogEntry gen check 1 = some (e1, l1) →
      wbcAttemptLogEntry gen check 2 = some (e2, l2) →
      executeWithBuildCheck gen check llm =
        { success := false, data := none, error := some e2, attempts := 3,
          repairLog := [l0, l1, l2] }) := by
  constructor
  · intro T gen val c e0 l0 e1 l1 e2 l2 h0 h1 h2
    rw [execute, show MAX_REPAIR_ATTEMPTS + 1 = 2 + 1 from rfl,
      executeGo_step_fail gen val 0 e0 l0 h0,
      executeGo_step_fail gen val 1 e1 l1 h1,
      executeGo_step_fail gen val 2 e2 l2 h2]
    rfl
  · intro gen check llm e0 l0 e1 l1 e2 l2 hllm h0 h1 h2
    unfold executeWithBuildCheck
    rw [show MAX_REPAIR_ATTEMPTS + 1 = 2 + 1 from rfl]
    obtain ⟨b1, r1, hstep0⟩ :=
      executeWBCGo_step_fail gen check llm 0 e0 l0 hllm h0 2 "" [] [] []
    rw [hstep0]
    obtain ⟨b2, r2, hstep1⟩ :=
      executeWBCGo_step_fail gen check llm 1 e1 l1 hllm h1 1 e0 ([] ++ [l0]) b1 r1
    rw [hstep1]
    obtain ⟨b3, r3, hstep2⟩ :=
      executeWBCGo_step_fail gen check llm 2 e2 l2 hllm h2 0 e1 (([] ++ [l0]) ++ [l1]) b2 r2
    rw [hstep2]
    rfl

/-- Witness for C4: a generator that always throws `"G"` (for `execute`) and a
build checker that always fails with `"ERR"` (for `executeWithBuildCheck`). -/
theorem C4_exhaustion_returns_failure_result_witness :
    execute (fun _ => Except.error "G") (fun _ (_ : Nat) => Except.ok ()) none =
      { success := false, data := none, error := some "G", attempts := 3,
        repairLog := ["Attempt 1: Generation failed - G",
                      "Attempt 2: Generation failed - G",
                      "Attempt 3: Generation failed - G"] } ∧
    executeWithBuildCheck (fun _ => Except.ok "C")
        (fun _ _ => Except.ok ⟨false, some "ERR"⟩) (fun _ _ _ => Except.ok "F") =
      { success := false, data := none, error := some "ERR", attempts := 3,
        repairLog := ["Attempt 1: Build failed - ERR",
                      "Attempt 2: Build failed - ERR",
                      "Attempt 3: Build failed - ERR"] } :=
  ⟨C4_exhaustion_returns_failure_result.1 Nat (fun _ => Except.error "G")
      (fun _ _ => Except.ok ()) none
      "G" "Attempt 1: Generation failed - G"
      "G" "Attempt 2: Generation failed - G"
      "G" "Attempt 3: Generation failed - G" (by decide) (by decide) (by decide),
    C4_exhaustion_returns_failure_result.2 (fun _ => Except.ok "C")
      (fun _ _ => Except.ok ⟨false, some "ERR"⟩) (fun _ _ _ => Except.ok "F")
      "ERR" "Attempt 1: Build failed - ERR"
      "ERR" "Attempt 2: Build failed - ERR"
      "ERR" "Attempt 3: Build failed - ERR"
      (fun _ _ _ => rfl) (by decide) (by decide) (by decide)⟩

/-- C5: `extractJSON` applied to a fenced response returns exactly the
substring `\x7b"a":1\x7d`; applied to the unbalanced input `\x7b"a":1` it
returns a string on which `JSON.parse` fails; and an `executeJSON` run whose
completion always returns that unbalanced input catches the parse failure and
treats it as a failed attempt — the run terminates normally with
`success = false` after all three attempts, and the second and third
completion calls are repair requests built from the parse error, rather than
an exception propagating to the caller. -/
theorem C5_extractJSON_fenced_and_unbalanced :
    extractJSON ("prose ```json\n\x7b\"a\":1\x7d\n``` prose") = "\x7b\"a\":1\x7d" ∧
    (jsonParse (extractJSON ("\x7b\"a\":1"))).isNone = true ∧
    (executeJSON (fun _ _ _ => Except.ok "\x7b\"a\":1") "SYS" "USER"
        (fun _ => Except.ok (0 : Nat))).success = false ∧
    (executeJSON (fun _ _ _ => Except.ok "\x7b\"a\":1") "SYS" "USER"
        (fun _ => Except.ok (0 : Nat))).attempts = 3 ∧
    executeJSONPrompts (fun _ _ _ => Except.ok "\x7b\"a\":1") "SYS" "USER"
        (fun _ => Except.ok (0 : Nat))
      = ["USER", createRepairPrompt "USER" "JSONParseError",
         createRepairPrompt "USER" "JSONParseError"] :=
  ⟨by decide, by decide, by decide, by decide, by decide⟩

/-- C6: `detectViewType` classifies `\x7bphoto, caption\x7d` as gallery,
`\x7bstatus, title\x7d` as kanban, `\x7btitle, body\x7d` as feed and
`\x7balpha, beta, gamma\x7d` as grid; any field list containing both an
image-ish and a status-ish name classifies as gallery (gallery is tested
first); and the classification depends only on the set of lowercased field
names (membership-equivalent field lists classify identically, so field order
and duplicates are irrelevant). -/
theorem C6_detectViewType_classification :
    detectViewType [⟨"photo", "Text"⟩, ⟨"caption", "Text"⟩] = .gallery ∧
    detectViewType [⟨"status", "Text"⟩, ⟨"title", "Text"⟩] = .kanban ∧
    detectViewType [⟨"title", "Text"⟩, ⟨"body", "Text"⟩] = .feed ∧
    detectViewType [⟨"alpha", "Text"⟩, ⟨"beta", "Text"⟩, ⟨"gamma", "Text"⟩] = .grid ∧
    (∀ fields : List HelixField,
      (∃ f ∈ fields, imageTokens.contains (jsToLower f.name) = true) →
      (∃ f ∈ fields, statusTokens.contains (jsToLower f.name) = true) →
      detectViewType fields = .gallery) ∧
    (∀ fields1 fields2 : List HelixField,
      (∀ n, n ∈ fields1.map (fun f => jsToLower f.name)
        ↔ n ∈ fields2.map (fun f => jsToLower f.name)) →
      detectViewType fields1 = detectViewType fields2) := by
  refine ⟨by decide, by decide, by decide, by decide, ?_, ?_⟩
  · intro fields himg _
    obtain ⟨f, hf, hmem⟩ := himg
    have : (fields.map (fun f => jsToLower f.name)).any
        (fun n => imageTokens.contains n) = true := by
      rw [List.any_eq_true]
      exact ⟨jsToLower f.name, List.mem_map_of_mem _ hf, hmem⟩
    simp only [detectViewType, this]
    simp
  · intro fields1 fields2 h
    have hany : ∀ p : String → Bool,
        (fields1.map (fun f => jsToLower f.name)).any p
          = (fields2.map (fun f => jsToLower f.name)).any p :=
      fun p => listAny_congr p h
    simp only [detectViewType, hany]

/-- Witness for C6's universally quantified parts: a gallery tie-break at
`[img, state]` and order-independence between `[title, body]` and
`[body, title, title]`. -/
theorem C6_detectViewType_classification_witness :
    detectViewType [⟨"img", "Text"⟩, ⟨"state", "Text"⟩] = .gallery ∧
    detectViewType [⟨"title", "Text"⟩, ⟨"body", "Text"⟩]
      = detectViewType [⟨"body", "Text"⟩, ⟨"title", "Text"⟩, ⟨"title", "Text"⟩] :=
  ⟨C6_detectViewType_classification.2.2.2.2.1 [⟨"img", "Text"⟩, ⟨"state", "Text"⟩]
      ⟨⟨"img", "Text"⟩, by decide, by decide⟩
      ⟨⟨"state", "Text"⟩, by decide, by decide⟩,
    C6_detectViewType_classification.2.2.2.2.2 [⟨"title", "Text"⟩, ⟨"body", "Text"⟩]
      [⟨"body", "Text"⟩, ⟨"title", "Text"⟩, ⟨"title", "Text"⟩]
      (fun n => by
        rw [show List.map (fun f => jsToLower f.name)
              [(⟨"title", "Text"⟩ : HelixField), ⟨"body", "Text"⟩] = ["title", "body"]
            from by decide,
          show List.map (fun f => jsToLower f.name)
              [(⟨"body", "Text"⟩ : HelixField), ⟨"title", "Text"⟩, ⟨"title", "Text"⟩]
              = ["body", "title", "title"]
            from by decide]
        simp only [List.mem_cons, List.not_mem_nil, or_false]
        tauto)⟩

/-- C7: when a Blueprint has at least one Strand and a View's `list` property
names a Strand absent from the Blueprint, both UI-generation paths
(`generateStack` in generate.ts and `spawnApp` in spawn.ts) resolve the view
to the first Strand of the Blueprint instead of failing: the `find` over the
strands misses and `|| ast.strands[0]` silently substitutes the first
Strand, so the view page is generated against it. -/
theorem C7_unresolved_list_falls_back_to_first_strand
    (s0 : HelixStrand) (rest : List HelixStrand) (view : HelixView) (v : String)
    (hl : propLookup view.properties ("list") = some v)
    (hw : jsSplitHead v ≠ "")
    (habsent : ∀ s ∈ s0 :: rest, s.name ≠ jsSplitHead v) :
    resolveViewStrandGenerate (s0 :: rest) view = some s0 ∧
    resolveViewStrandSpawn (s0 :: rest) view = some s0 := by
  have hfindg : (s0 :: rest).find? (fun s => s.name == jsSplitHead v) = none := by
    rw [List.find?_eq_none]
    intro s hs
    simp [beq_iff_eq]
    exact habsent s hs
  have hfinds : (s0 :: rest).find? (fun s => some s.name == some (jsSplitHead v)) = none := by
    rw [List.find?_eq_none]
    intro s hs
    simp [beq_iff_eq]
    exact habsent s hs
  constructor
  · rw [resolveViewStrandGenerate]
    simp only [hl, Option.getD_some, if_pos hw, hfindg]
    rfl
  · rw [resolveViewStrandSpawn]
    simp only [hl, Option.map_some', if_pos hw, hfinds]
    rfl

/-- Witness for C7: strands `Task`, `Note` and a view listing the absent
strand `Ghost`. -/
theorem C7_unresolved_list_falls_back_to_first_strand_witness :
    resolveViewStrandGenerate [⟨"Task", []⟩, ⟨"Note", []⟩]
        ⟨"V", [("list", "Ghost.all()")]⟩ = some ⟨"Task", []⟩ ∧
    resolveViewStrandSpawn [⟨"Task", []⟩, ⟨"Note", []⟩]
        ⟨"V", [("list", "Ghost.all()")]⟩ = some ⟨"Task", []⟩ :=
  C7_unresolved_list_falls_back_to_first_strand ⟨"Task", []⟩ [⟨"Note", []⟩]
    ⟨"V", [("list", "Ghost.all()")]⟩ "Ghost.all()" (by decide) (by decide)
    (by decide)

/-- C8 counterexample: a built-in entry can be replaced.  `scanForPlugins`
excludes only the built-in package *names* (`helix-gen-flutter`,
`helix-gen-nextjs`), so a dependency named `helix-gen-web` passes the filter,
derives target `web` (via `name.replace("helix-gen-", "")`), and
`plugins.set("web", ...)` overwrites the built-in entry: afterwards
`getPlugin("web")` returns the external entry (`isBuiltIn = false`), not the
built-in one. -/
theorem C8_counterexample_builtin_web_overwritten :
    getPlugin
        (applyOps newPluginRegistry
          [.scan "/proj" true true [("helix-gen-web", "1.0.0")]
            (fun _ => ⟨true, true, none⟩)]) ("web")
      = some { name := "helix-gen-web", target := "web", version := "1.0.0",
               modulePath := "/proj/node_modules/helix-gen-web", isBuiltIn := false } ∧
    getPlugin newPluginRegistry ("web")
      = some { name := "helix-gen-nextjs", target := "web", version := "10.0.0",
               modulePath := "../commands/spawn", isBuiltIn := true } ∧
    getPlugin
        (applyOps newPluginRegistry
          [.scan "/proj" true true [("helix-gen-web", "1.0.0")]
            (fun _ => ⟨true, true, none⟩)]) ("web")
      ≠ getPlugin newPluginRegistry ("web") :=
  ⟨by decide, by decide, by decide⟩

theorem mapGet_isSome_mapSet {E : Type} (m : List (String × E)) (k t : String)
    (v : E) (h : (mapGet m t).isSome = true) :
    (mapGet (mapSet m k v) t).isSome = true := by
  rw [mapGet_mapSet]
  by_cases ht : t = k
  · simp [ht]
  · simpa [ht] using h

theorem hasTarget_registerExternalPlugin (st : RegistryState)
    (pp n v : String) (pkg : ExternalPkgInfo) (t : String)
    (h : hasTarget st t = true) :
    hasTarget (registerExternalPlugin st pp n v pkg) t = true := by
  unfold registerExternalPlugin
  by_cases h1 : pkg.moduleExists <;> by_cases h2 : pkg.manifestReadOk <;>
    simp only [h1, h2, Bool.not_true, Bool.not_false, if_true, if_false] <;>
    try exact h
  exact mapGet_isSome_mapSet st.plugins _ t _ h

theorem hasTarget_applyOp (st : RegistryState) (op : RegistryOp) (t : String)
    (h : hasTarget st t = true) : hasTarget (applyOp st op) t = true := by
  cases op with
  | scan pp hp rp deps w =>
      show hasTarget (scanForPlugins st pp hp rp deps w) t = true
      unfold scanForPlugins
      by_cases h1 : hp <;> by_cases h2 : rp <;>
        simp only [h1, h2, Bool.not_true, Bool.not_false, if_true, if_false] <;>
        try exact h
      refine foldl_preserves_mem (fun s => hasTarget s t = true) _ deps st ?_ h
      intro nv _ s hs
      split
      · exact hasTarget_registerExternalPlugin s pp nv.1 nv.2 (w nv.1) t hs
      · exact hs
  | registerExt pp n v pkg =>
      exact hasTarget_registerExternalPlugin st pp n v pkg t h
  | load t' ok =>
      show hasTarget (loadGenerator st t' ok) t = true
      unfold loadGenerator
      split
      · exact h
      · split
        · exact h
        · split
          · exact h
          · exact h

/-- C8 amended: built-in entries are registered at construction time and no
registry operation ever deletes a key from the `plugins` map — after any
sequence of `scanForPlugins`, `registerExternalPlugin` and `loadGenerator`
operations, the targets `flutter` and `web` are still registered.  However,
an external plugin whose derived target collides with a built-in target
replaces the built-in *entry* under that key (the counterexample), so only
the presence of the targets is invariant, not the entries themselves. -/
theorem C8_amended_builtin_targets_persist :
    ∀ ops : List RegistryOp,
      hasTarget (applyOps newPluginRegistry ops) ("flutter") = true ∧
      hasTarget (applyOps newPluginRegistry ops) ("web") = true := by
  intro ops
  exact foldl_preserves_mem
    (fun st => hasTarget st ("flutter") = true ∧ hasTarget st ("web") = true)
    applyOp ops newPluginRegistry
    (fun op _ st hst => ⟨hasTarget_applyOp st op _ hst.1, hasTarget_applyOp st op _ hst.2⟩)
    ⟨by decide, by decide⟩

/-- C9: in `writeFileSystemMap`, an entry whose `overwrite` flag is unset,
whose target path already exists, and with `overwriteExisting` unset, is
counted as skipped (not written) and leaves the disk unchanged; and across a
whole map of non-overwritable entries with `overwriteExisting` unset, every
pre-existing file keeps its content — only overwritable entries (or runs with
`overwriteExisting`) can replace existing files. -/
theorem C9_existing_files_skipped_not_overwritten :
    (∀ (opts : WriteOptions) (pp : String) (st : WriteState) (f : GeneratedFile),
      opts.overwriteExisting = false → f.overwrite = false →
      (st.disk (pathJoin pp f.path)).isSome = true →
      writeOne opts pp st f = { st with skipped := st.skipped + 1 }) ∧
    (∀ (opts : WriteOptions) (pp : String) (files : List GeneratedFile)
        (disk : String → Option String) (p c : String),
      opts.overwriteExisting = false →
      (∀ f ∈ files, f.overwrite = false) →
      disk p = some c →
      (writeFileSystemMap pp files opts disk).disk p = some c) := by
  constructor
  · intro opts pp st f ho hf hex
    unfold writeOne
    rw [if_pos]
    rw [hex, hf, ho]
    rfl
  · intro opts pp files disk p c ho hfiles hp
    unfold writeFileSystemMap
    refine foldl_preserves_mem (fun st => st.disk p = some c)
      (writeOne opts pp) files
      { disk := disk, written := 0, skipped := 0, errors := [] } ?_ hp
    intro f hf st hst
    unfold writeOne
    dsimp only
    split
    · exact hst
    · next hcond =>
        simp only
        by_cases hpeq : p = pathJoin pp f.path
        · exfalso
          apply hcond
          rw [← hpeq, hst, hfiles f hf, ho]
          rfl
        · rw [if_neg hpeq]
          exact hst

/-- Witness for C9: one non-overwritable entry whose path already holds
`"OLD"`, with `overwriteExisting` unset. -/
theorem C9_existing_files_skipped_not_overwritten_witness :
    writeOne ⟨false, false⟩ "/proj"
        { disk := fun p => if p = pathJoin "/proj" "a.txt" then some "OLD" else none,
          written := 0, skipped := 0, errors := [] }
        ⟨"a.txt", "NEW", false⟩
      = { disk := fun p => if p = pathJoin "/proj" "a.txt" then some "OLD" else none,
          written := 0, skipped := 0 + 1, errors := [] } ∧
    (writeFileSystemMap "/proj" [⟨"a.txt", "NEW", false⟩] ⟨false, false⟩
        (fun p => if p = pathJoin "/proj" "a.txt" then some "OLD" else none)).disk
        (pathJoin "/proj" "a.txt")
      = some "OLD" :=
  ⟨C9_existing_files_skipped_not_overwritten.1 ⟨false, false⟩ "/proj"
      { disk := fun p => if p = pathJoin "/proj" "a.txt" then some "OLD" else none,
        written := 0, skipped := 0, errors := [] }
      ⟨"a.txt", "NEW", false⟩ rfl rfl (by simp),
    C9_existing_files_skipped_not_overwritten.2 ⟨false, false⟩ "/proj"
      [⟨"a.txt", "NEW", false⟩]
      (fun p => if p = pathJoin "/proj" "a.txt" then some "OLD" else none)
      (pathJoin "/proj" "a.txt") "OLD" rfl
      (fun f hf => by simp at hf; rw [hf]) (by simp)⟩

/-- C10: the balanced, valid JSON input `\x7b"a":"\x7d"\x7d` (a close brace
inside a string literal) defeats `extractJSON`: the depth scan counts the
quoted `\x7d` and truncates to `\x7b"a":"\x7d`, which `JSON.parse` rejects, so
an `executeJSON` attempt whose completion returns this well-formed JSON is
recorded as a failure (all three attempts fail and the run returns
`success = false`). -/
theorem C10_extractJSON_truncates_inside_string_literal :
    (jsonParse ("\x7b\"a\":\"\x7d\"\x7d")).isSome = true ∧
    extractJSON ("\x7b\"a\":\"\x7d\"\x7d") = "\x7b\"a\":\"\x7d" ∧
    (jsonParse (extractJSON ("\x7b\"a\":\"\x7d\"\x7d"))).isNone = true ∧
    (executeJSON (fun _ _ _ => Except.ok "\x7b\"a\":\"\x7d\"\x7d") "SYS" "USER"
        (fun _ => Except.ok (0 : Nat))).success = false ∧
    (executeJSON (fun _ _ _ => Except.ok "\x7b\"a\":\"\x7d\"\x7d") "SYS" "USER"
        (fun _ => Except.ok (0 : Nat))).attempts = 3 :=
  ⟨by decide, by decide, by decide, by decide, by decide⟩

end Helix
